import Mathlib

/-!
Verification of the Warden 2D game engine (`src/Warden/Warden.py`) against its
specification. The Python source is shallowly embedded: Python `float`s are
modelled as `Rat`, Python `int`s as `Int`, `pygame.Rect` as a record of four
`Int`s (pygame rects store integer coordinates; assigning a float truncates it
toward zero), dictionaries as association lists, and callback side effects as
explicit logs. Randomness (`random.uniform`, `random.randint`) is modelled by
passing the drawn values in as parameters.
-/

/-- Truncation of a rational toward zero, as performed by Python `int(...)`
and by assignment of a float into a `pygame.Rect` integer field. -/
def pyTrunc (q : Rat) : Int := if q < 0 then -Int.floor (-q) else Int.floor q

theorem pyTrunc_of_nonneg {q : Rat} (h : 0 ≤ q) : pyTrunc q = Int.floor q := by
  unfold pyTrunc
  rw [if_neg (not_lt.2 h)]

theorem pyTrunc_eq_zero_iff {q : Rat} : pyTrunc q = 0 ↔ -1 < q ∧ q < 1 := by
  unfold pyTrunc
  split
  · next hq =>
    rw [neg_eq_zero, Int.floor_eq_zero_iff, Set.mem_Ico]
    constructor
    · rintro ⟨h1, h2⟩
      exact ⟨by linarith, by linarith⟩
    · rintro ⟨h1, h2⟩
      exact ⟨by linarith, by linarith⟩
  · next hq =>
    rw [Int.floor_eq_zero_iff, Set.mem_Ico]
    constructor
    · rintro ⟨h1, h2⟩
      exact ⟨by linarith, h2⟩
    · rintro ⟨h1, h2⟩
      exact ⟨le_of_not_lt hq, h2⟩

theorem pyTrunc_cast_le {q : Rat} (h : 0 ≤ q) : (pyTrunc q : Rat) ≤ q := by
  rw [pyTrunc_of_nonneg h]
  exact Int.floor_le q

theorem le_pyTrunc {n : Int} {q : Rat} (h0 : 0 ≤ q) (h : (n : Rat) ≤ q) :
    n ≤ pyTrunc q := by
  rw [pyTrunc_of_nonneg h0]
  exact Int.le_floor.2 h

/-- `pygame.Rect`: an axis-aligned rectangle with integer coordinates. -/
structure PyRect where
  x : Int
  y : Int
  w : Int
  h : Int
deriving DecidableEq, Repr

/-- `pygame.Rect.colliderect`: strict-overlap test between two rectangles. -/
def PyRect.colliderect (a b : PyRect) : Bool :=
  decide ((a.x < b.x + b.w) ∧ (b.x < a.x + a.w) ∧ (a.y < b.y + b.h) ∧ (b.y < a.y + a.h))

theorem PyRect.colliderect_symm (a b : PyRect) : a.colliderect b = b.colliderect a := by
  simp only [colliderect, decide_eq_decide]
  tauto

/-- `pygame.Rect.collidepoint`: a point on the right or bottom edge is outside. -/
def PyRect.collidepoint (r : PyRect) (p : Int × Int) : Bool :=
  decide ((r.x ≤ p.1) ∧ (p.1 < r.x + r.w) ∧ (r.y ≤ p.2) ∧ (p.2 < r.y + r.h))

/-- `Camera.__init__`: viewport rect, zoom limits, smoothing.
The followed target is irrelevant to the claims and omitted. -/
structure Camera where
  rect : PyRect
  zoom : Rat
  max_zoom : Rat
  min_zoom : Rat
  smoothness : Rat
deriving DecidableEq, Repr

/-- `Camera(width, height)` constructor defaults. -/
def Camera.mk' (width height : Int) : Camera :=
  { rect := { x := 0, y := 0, w := width, h := height }
    zoom := 1, max_zoom := 3, min_zoom := 1/2, smoothness := 1/10 }

/-- `Camera.apply_pos`: subtract the viewport's top-left from a position. -/
def Camera.apply_pos (c : Camera) (pos : Rat × Rat) : Rat × Rat :=
  (pos.1 - (c.rect.x : Rat), pos.2 - (c.rect.y : Rat))

/-- `Camera.reverse_pos`: add the viewport's top-left to a position. -/
def Camera.reverse_pos (c : Camera) (pos : Rat × Rat) : Rat × Rat :=
  (pos.1 + (c.rect.x : Rat), pos.2 + (c.rect.y : Rat))

/-- `Camera.set_zoom`: clamp the zoom into `[min_zoom, max_zoom]`, then divide
the current viewport width/height by the clamped zoom (truncating to `int`). -/
def Camera.set_zoom (c : Camera) (z : Rat) : Camera :=
  let zoom := max c.min_zoom (min c.max_zoom z)
  { c with zoom := zoom
           rect := { c.rect with
                     w := pyTrunc ((c.rect.w : Rat) / zoom)
                     h := pyTrunc ((c.rect.h : Rat) / zoom) } }

/-- C2: for every camera state and every position `p`,
`reverse_pos (apply_pos p) = p` exactly; `apply_pos` subtracts the viewport's
top-left and `reverse_pos` is its exact inverse. -/
theorem camera_reverse_apply_pos (c : Camera) (p : Rat × Rat) :
    c.reverse_pos (c.apply_pos p) = p := by
  simp only [Camera.apply_pos, Camera.reverse_pos]
  rw [Prod.mk.injEq]
  constructor <;> ring

theorem pyTrunc_div_step {z : Rat} (hz1 : 1 < z) (v : Int) (hv : z ≤ (v : Rat)) :
    1 ≤ pyTrunc ((v : Rat) / z) ∧
    pyTrunc ((pyTrunc ((v : Rat) / z) : Rat) / z) < pyTrunc ((v : Rat) / z) := by
  have hz0 : (0 : Rat) < z := lt_trans one_pos hz1
  have hq0 : (0 : Rat) ≤ (v : Rat) / z := div_nonneg (le_trans hz0.le hv) hz0.le
  have h1 : (1 : Rat) ≤ (v : Rat) / z := (one_le_div hz0).2 hv
  have hw1 : 1 ≤ pyTrunc ((v : Rat) / z) := le_pyTrunc hq0 (by exact_mod_cast h1)
  refine ⟨hw1, ?_⟩
  have hw1R : (1 : Rat) ≤ (pyTrunc ((v : Rat) / z) : Rat) := by exact_mod_cast hw1
  have h3 : (pyTrunc ((pyTrunc ((v : Rat) / z) : Rat) / z) : Rat) ≤
      (pyTrunc ((v : Rat) / z) : Rat) / z :=
    pyTrunc_cast_le (div_nonneg (by linarith) hz0.le)
  have h2 : (pyTrunc ((v : Rat) / z) : Rat) / z < (pyTrunc ((v : Rat) / z) : Rat) :=
    div_lt_self (by linarith) hz1
  exact_mod_cast lt_of_le_of_lt h3 h2

/-- C10 (amended): `set_zoom` rescales relative to the current viewport size,
so it is not idempotent: whenever `z ∈ (min_zoom, max_zoom]`, `z > 1`, and the
current viewport is at least `z` wide and tall (so that a single call still
leaves a positive viewport), two consecutive `set_zoom z` calls leave a
strictly smaller viewport than a single call; each call sets the width to
`int(width / clamped_zoom)` from the dimensions left by previous calls, and the
stored zoom is the clamped value `z`. -/
theorem set_zoom_twice_strictly_smaller (c : Camera) (z : Rat)
    (hz1 : 1 < z) (hzmax : z ≤ c.max_zoom) (hzmin : c.min_zoom < z)
    (hw : z ≤ (c.rect.w : Rat)) (hh : z ≤ (c.rect.h : Rat)) :
    (c.set_zoom z).zoom = z ∧
    (c.set_zoom z).rect.w = pyTrunc ((c.rect.w : Rat) / z) ∧
    (c.set_zoom z).rect.h = pyTrunc ((c.rect.h : Rat) / z) ∧
    ((c.set_zoom z).set_zoom z).rect.w < (c.set_zoom z).rect.w ∧
    ((c.set_zoom z).set_zoom z).rect.h < (c.set_zoom z).rect.h := by
  have hclamp : max c.min_zoom (min c.max_zoom z) = z := by
    rw [min_eq_right hzmax, max_eq_right hzmin.le]
  have e1 : c.set_zoom z =
      { rect := { x := c.rect.x, y := c.rect.y,
                  w := pyTrunc ((c.rect.w : Rat) / z), h := pyTrunc ((c.rect.h : Rat) / z) }
        zoom := z, max_zoom := c.max_zoom, min_zoom := c.min_zoom,
        smoothness := c.smoothness } := by
    simp [Camera.set_zoom, hclamp]
  have e2 : (c.set_zoom z).set_zoom z =
      { rect := { x := c.rect.x, y := c.rect.y,
                  w := pyTrunc ((pyTrunc ((c.rect.w : Rat) / z) : Rat) / z),
                  h := pyTrunc ((pyTrunc ((c.rect.h : Rat) / z) : Rat) / z) }
        zoom := z, max_zoom := c.max_zoom, min_zoom := c.min_zoom,
        smoothness := c.smoothness } := by
    rw [e1]
    simp [Camera.set_zoom, hclamp]
  rw [e2, e1]
  exact ⟨rfl, rfl, rfl, (pyTrunc_div_step hz1 c.rect.w hw).2, (pyTrunc_div_step hz1 c.rect.h hh).2⟩

theorem set_zoom_twice_strictly_smaller_witness :
    ((Camera.mk' 800 600).set_zoom 2).zoom = 2 ∧
    ((Camera.mk' 800 600).set_zoom 2).rect.w = pyTrunc (((800 : Int) : Rat) / 2) ∧
    ((Camera.mk' 800 600).set_zoom 2).rect.h = pyTrunc (((600 : Int) : Rat) / 2) ∧
    (((Camera.mk' 800 600).set_zoom 2).set_zoom 2).rect.w < ((Camera.mk' 800 600).set_zoom 2).rect.w ∧
    (((Camera.mk' 800 600).set_zoom 2).set_zoom 2).rect.h < ((Camera.mk' 800 600).set_zoom 2).rect.h :=
  set_zoom_twice_strictly_smaller (Camera.mk' 800 600) 2
    (by norm_num) (by norm_num [Camera.mk']) (by norm_num [Camera.mk'])
    (by norm_num [Camera.mk']) (by norm_num [Camera.mk'])

/-- C10 (counterexample): for the camera `Camera(2, 2)` and `z = 3` — which
lies in `(min_zoom, max_zoom] = (0.5, 3]` and exceeds 1 — a single `set_zoom 3`
already truncates the width to 0, and a second call leaves it at 0, so two
consecutive calls do NOT leave a strictly smaller viewport than a single call,
refuting the claim's universal strictness. -/
theorem set_zoom_counterexample :
    (Camera.mk' 2 2).min_zoom < 3 ∧ (3 : Rat) ≤ (Camera.mk' 2 2).max_zoom ∧ (1 : Rat) < 3 ∧
    ((Camera.mk' 2 2).set_zoom 3).rect.w = 0 ∧
    (((Camera.mk' 2 2).set_zoom 3).set_zoom 3).rect.w = 0 ∧
    ¬ ((((Camera.mk' 2 2).set_zoom 3).set_zoom 3).rect.w < ((Camera.mk' 2 2).set_zoom 3).rect.w) := by
  norm_num [Camera.mk', Camera.set_zoom, pyTrunc]

theorem pyTrunc_intCast (n : Int) : pyTrunc ((n : Rat)) = n := by
  unfold pyTrunc
  split
  · next h =>
    have : -Int.floor (-(n : Rat)) = -Int.floor (((-n : Int) : Rat)) := by push_cast; ring_nf
    rw [this, Int.floor_intCast]
    ring
  · exact Int.floor_intCast n

/-- `PhysicsBody`: rectangle, velocity, flags. Python object identity
(used by the `other != body` test in `PhysicsWorld.update`) is modelled by the
`id` field; the `on_collide` callback is modelled as a pure observer, so
`PhysicsWorld.update` returns the log of `(callee id, argument id)` invocations
instead of running side effects. -/
structure PhysicsBody where
  id : Nat
  rect : PyRect
  velocity : Rat × Rat
  dynamic : Bool
  collider : Bool
  gravity_scale : Rat
  friction : Rat
deriving DecidableEq, Repr

/-- `PhysicsBody.move(dx, dy)`: `rect.x += dx; rect.y += dy`. The pygame rect
stores integers, so the float sum is truncated toward zero on assignment. -/
def PhysicsBody.move (b : PhysicsBody) (dx dy : Rat) : PhysicsBody :=
  { b with rect := { b.rect with
                     x := pyTrunc ((b.rect.x : Rat) + dx)
                     y := pyTrunc ((b.rect.y : Rat) + dy) } }

/-- `PhysicsWorld`: body registry plus the global gravity vector. -/
structure PhysicsWorld where
  bodies : List PhysicsBody
  gravity : Rat × Rat
deriving DecidableEq, Repr

/-- `PhysicsWorld()` constructor: gravity defaults to `(0, 0.5)`. -/
def PhysicsWorld.mk' (bodies : List PhysicsBody) : PhysicsWorld :=
  { bodies := bodies, gravity := (0, 1/2) }

/-- The gravity-then-move step performed on a dynamic body at the top of the
`for body in self.bodies` loop of `PhysicsWorld.update`. -/
def PhysicsWorld.integrate (g : Rat × Rat) (b : PhysicsBody) : PhysicsBody :=
  if b.dynamic = true then
    PhysicsBody.move
      { b with velocity := (b.velocity.1 + g.1 * b.gravity_scale,
                            b.velocity.2 + g.2 * b.gravity_scale) }
      (b.velocity.1 + g.1 * b.gravity_scale) (b.velocity.2 + g.2 * b.gravity_scale)
  else b

/-- The collision-detection half of one loop iteration: for every `other` body
distinct from `body` (object identity) with `collider` set and an overlapping
rect, the source calls `body.on_collide(other)` AND `other.on_collide(body)`. -/
def PhysicsWorld.collisionLogFor (b : PhysicsBody) (bodies : List PhysicsBody) :
    List (Nat × Nat) :=
  if b.collider = true then
    bodies.flatMap (fun other =>
      if other.id ≠ b.id ∧ other.collider = true ∧ b.rect.colliderect other.rect = true then
        [(b.id, other.id), (other.id, b.id)]
      else [])
  else []

/-- The `for body in self.bodies` loop of `PhysicsWorld.update`: Python
iterates the (in-place mutated) list by successive indices, so the loop is
driven by the index list `[0, ..., n-1]`. -/
def PhysicsWorld.updateLoop (g : Rat × Rat) :
    List Nat → List PhysicsBody → List PhysicsBody × List (Nat × Nat)
  | [], bodies => (bodies, [])
  | i :: rest, bodies =>
    match bodies[i]? with
    | none => PhysicsWorld.updateLoop g rest bodies
    | some b =>
      let b' := PhysicsWorld.integrate g b
      let bodies' := bodies.set i b'
      let res := PhysicsWorld.updateLoop g rest bodies'
      (res.1, PhysicsWorld.collisionLogFor b' bodies' ++ res.2)

/-- `PhysicsWorld.update()`: returns the updated world and the log of
`on_collide` invocations `(callee id, argument id)` in call order. -/
def PhysicsWorld.update (w : PhysicsWorld) : PhysicsWorld × List (Nat × Nat) :=
  let r := PhysicsWorld.updateLoop w.gravity (List.range w.bodies.length) w.bodies
  ({ w with bodies := r.1 }, r.2)

theorem getElem?_append_cons {α : Type} (l r : List α) (x : α) :
    (l ++ x :: r)[l.length]? = some x := by
  induction l with
  | nil => simp
  | cons a l ih => simpa using ih

theorem set_append_cons {α : Type} (l r : List α) (x y : α) :
    (l ++ x :: r).set l.length y = l ++ y :: r := by
  induction l with
  | nil => rfl
  | cons a l ih => simp [ih]

theorem updateLoop_fst (g : Rat × Rat) (todo done : List PhysicsBody) :
    (PhysicsWorld.updateLoop g (List.range' done.length todo.length) (done ++ todo)).1 =
      done ++ todo.map (PhysicsWorld.integrate g) := by
  induction todo generalizing done with
  | nil => simp [PhysicsWorld.updateLoop, List.range']
  | cons b rest ih =>
    rw [List.length_cons, List.range'_succ, PhysicsWorld.updateLoop, getElem?_append_cons]
    simp only
    rw [set_append_cons]
    have h1 : done.length + 1 = (done ++ [PhysicsWorld.integrate g b]).length := by simp
    have h2 : done ++ PhysicsWorld.integrate g b :: rest =
        (done ++ [PhysicsWorld.integrate g b]) ++ rest := by simp
    rw [h1, h2, ih]
    simp

theorem update_bodies_eq_map (w : PhysicsWorld) :
    (PhysicsWorld.update w).1.bodies = w.bodies.map (PhysicsWorld.integrate w.gravity) := by
  have := updateLoop_fst w.gravity w.bodies []
  simpa [PhysicsWorld.update, List.range_eq_range'] using this

/-- C3 (amended): one `PhysicsWorld.update()` call integrates every body
exactly once (no sub-stepping); for a dynamic body it first adds
`gravity * gravity_scale` componentwise to the velocity, then moves the rect
by the post-gravity velocity, with each coordinate truncated toward zero when
stored into the integer rect (`rect.x` becomes `int(rect.x + vx)`); when both
post-gravity velocity components are integers the rect moves by exactly the
post-gravity velocity. -/
theorem physics_update_semi_implicit_euler (w : PhysicsWorld) (b : PhysicsBody) (i : Nat)
    (hb : w.bodies[i]? = some b) (hd : b.dynamic = true) :
    (PhysicsWorld.update w).1.bodies = w.bodies.map (PhysicsWorld.integrate w.gravity) ∧
    (PhysicsWorld.update w).1.bodies[i]? = some (PhysicsWorld.integrate w.gravity b) ∧
    (PhysicsWorld.integrate w.gravity b).velocity =
      (b.velocity.1 + w.gravity.1 * b.gravity_scale,
       b.velocity.2 + w.gravity.2 * b.gravity_scale) ∧
    (PhysicsWorld.integrate w.gravity b).rect.x =
      pyTrunc ((b.rect.x : Rat) + (b.velocity.1 + w.gravity.1 * b.gravity_scale)) ∧
    (PhysicsWorld.integrate w.gravity b).rect.y =
      pyTrunc ((b.rect.y : Rat) + (b.velocity.2 + w.gravity.2 * b.gravity_scale)) ∧
    (∀ mx my : Int,
      b.velocity.1 + w.gravity.1 * b.gravity_scale = (mx : Rat) →
      b.velocity.2 + w.gravity.2 * b.gravity_scale = (my : Rat) →
      (PhysicsWorld.integrate w.gravity b).rect.x = b.rect.x + mx ∧
      (PhysicsWorld.integrate w.gravity b).rect.y = b.rect.y + my) := by
  refine ⟨update_bodies_eq_map w, ?_, ?_, ?_, ?_, ?_⟩
  · rw [update_bodies_eq_map w, List.getElem?_map, hb, Option.map_some']
  · simp [PhysicsWorld.integrate, hd, PhysicsBody.move]
  · simp [PhysicsWorld.integrate, hd, PhysicsBody.move]
  · simp [PhysicsWorld.integrate, hd, PhysicsBody.move]
  · intro mx my hx hy
    constructor
    · simp only [PhysicsWorld.integrate, hd, if_pos, PhysicsBody.move, hx]
      rw [show ((b.rect.x : Rat) + (mx : Rat)) = (((b.rect.x + mx : Int)) : Rat) by push_cast; ring]
      exact pyTrunc_intCast _
    · simp only [PhysicsWorld.integrate, hd, if_pos, PhysicsBody.move, hy]
      rw [show ((b.rect.y : Rat) + (my : Rat)) = (((b.rect.y + my : Int)) : Rat) by push_cast; ring]
      exact pyTrunc_intCast _

/-- A dynamic 32x32 body at the origin, at rest, with default flags. -/
def c3Body : PhysicsBody :=
  { id := 0, rect := { x := 0, y := 0, w := 32, h := 32 }, velocity := (0, 0),
    dynamic := true, collider := true, gravity_scale := 1, friction := 9/10 }

def c3World : PhysicsWorld := PhysicsWorld.mk' [c3Body]

theorem physics_update_semi_implicit_euler_witness :
    (PhysicsWorld.update c3World).1.bodies =
      c3World.bodies.map (PhysicsWorld.integrate c3World.gravity) ∧
    (PhysicsWorld.update c3World).1.bodies[0]? =
      some (PhysicsWorld.integrate c3World.gravity c3Body) ∧
    (PhysicsWorld.integrate c3World.gravity c3Body).velocity =
      (c3Body.velocity.1 + c3World.gravity.1 * c3Body.gravity_scale,
       c3Body.velocity.2 + c3World.gravity.2 * c3Body.gravity_scale) ∧
    (PhysicsWorld.integrate c3World.gravity c3Body).rect.x =
      pyTrunc ((c3Body.rect.x : Rat) +
        (c3Body.velocity.1 + c3World.gravity.1 * c3Body.gravity_scale)) ∧
    (PhysicsWorld.integrate c3World.gravity c3Body).rect.y =
      pyTrunc ((c3Body.rect.y : Rat) +
        (c3Body.velocity.2 + c3World.gravity.2 * c3Body.gravity_scale)) ∧
    (∀ mx my : Int,
      c3Body.velocity.1 + c3World.gravity.1 * c3Body.gravity_scale = (mx : Rat) →
      c3Body.velocity.2 + c3World.gravity.2 * c3Body.gravity_scale = (my : Rat) →
      (PhysicsWorld.integrate c3World.gravity c3Body).rect.x = c3Body.rect.x + mx ∧
      (PhysicsWorld.integrate c3World.gravity c3Body).rect.y = c3Body.rect.y + my) :=
  physics_update_semi_implicit_euler c3World c3Body 0 rfl rfl

/-- C3 (counterexample): in the world `c3World` — a single dynamic body at
rest at the origin under the default gravity `(0, 0.5)` — one `update()` call
leaves the body with post-gravity velocity `(0, 1/2)` but with `rect.y` still
`0`: the integer rect did not move by the post-gravity velocity, since the
claimed exact landing spot `y + vy = 1/2` is not representable and pygame
truncates the assigned float, refuting "moves the body's rect by exactly that
post-gravity velocity". -/
theorem physics_move_truncation_counterexample :
    ((PhysicsWorld.update c3World).1.bodies.map fun b => ((b.rect.y : Rat), b.velocity.2)) =
      [(0, 1/2)] ∧
    (c3Body.rect.y : Rat) + (1/2 : Rat) = 1/2 ∧
    ((0 : Rat) ≠ (1/2 : Rat)) := by
  refine ⟨?_, by norm_num [c3Body], by norm_num⟩
  rw [update_bodies_eq_map]
  norm_num [c3World, PhysicsWorld.mk', c3Body, PhysicsWorld.integrate, PhysicsBody.move, pyTrunc]

/-- C1 (amended): for a world holding exactly two overlapping bodies, both
with `collider=true` and `dynamic=false`, one `PhysicsWorld.update()` call
invokes each body's `on_collide` callback exactly TWICE, each time with the
other body as its argument (the inner loop calls `body.on_collide(other)` and
`other.on_collide(body)`, and each unordered pair is visited from both sides),
and changes neither body's rect: the rects still overlap after the call. -/
theorem physics_two_static_colliders_callbacks (w : PhysicsWorld) (a b : PhysicsBody)
    (hw : w.bodies = [a, b]) (hid : a.id ≠ b.id)
    (hca : a.collider = true) (hcb : b.collider = true)
    (hda : a.dynamic = false) (hdb : b.dynamic = false)
    (hcol : a.rect.colliderect b.rect = true) :
    (PhysicsWorld.update w).1.bodies = [a, b] ∧
    (PhysicsWorld.update w).2 =
      [(a.id, b.id), (b.id, a.id), (b.id, a.id), (a.id, b.id)] ∧
    ((PhysicsWorld.update w).2.countP fun e => e.1 == a.id) = 2 ∧
    ((PhysicsWorld.update w).2.countP fun e => e.1 == b.id) = 2 ∧
    (∀ e ∈ (PhysicsWorld.update w).2,
      (e.1 = a.id ∧ e.2 = b.id) ∨ (e.1 = b.id ∧ e.2 = a.id)) ∧
    (PhysicsWorld.update w).1.bodies = w.bodies ∧
    a.rect.colliderect b.rect = true := by
  have hid' : b.id ≠ a.id := Ne.symm hid
  have hsymm : b.rect.colliderect a.rect = true := by
    rw [PyRect.colliderect_symm]; exact hcol
  have hrange : List.range w.bodies.length = [0, 1] := by rw [hw]; rfl
  have hia : PhysicsWorld.integrate w.gravity a = a := by
    simp [PhysicsWorld.integrate, hda]
  have hib : PhysicsWorld.integrate w.gravity b = b := by
    simp [PhysicsWorld.integrate, hdb]
  have hrun : PhysicsWorld.updateLoop w.gravity [0, 1] [a, b] =
      ([a, b], [(a.id, b.id), (b.id, a.id), (b.id, a.id), (a.id, b.id)]) := by
    simp [PhysicsWorld.updateLoop, hia, hib, PhysicsWorld.collisionLogFor,
      hca, hcb, hcol, hsymm, hid, hid']
  have hupd : PhysicsWorld.update w =
      ({ w with bodies := [a, b] },
        [(a.id, b.id), (b.id, a.id), (b.id, a.id), (a.id, b.id)]) := by
    rw [PhysicsWorld.update, hrange, hw, hrun]
  rw [hupd, hw]
  refine ⟨rfl, rfl, ?_, ?_, ?_, rfl, hcol⟩
  · simp [List.countP_cons, hid']
  · simp [List.countP_cons, hid]
  · intro e he
    simp only [List.mem_cons, List.not_mem_nil, or_false] at he
    rcases he with h | h | h | h <;> rw [h] <;> simp

/-- Two static colliding bodies: 32x32 rects at x=0 and x=16 overlap. -/
def c1BodyA : PhysicsBody :=
  { id := 0, rect := { x := 0, y := 0, w := 32, h := 32 }, velocity := (0, 0),
    dynamic := false, collider := true, gravity_scale := 1, friction := 9/10 }

def c1BodyB : PhysicsBody :=
  { id := 1, rect := { x := 16, y := 0, w := 32, h := 32 }, velocity := (0, 0),
    dynamic := false, collider := true, gravity_scale := 1, friction := 9/10 }

def c1World : PhysicsWorld := PhysicsWorld.mk' [c1BodyA, c1BodyB]

/-- C1 (counterexample): in the two-body world `c1World` (both bodies static
colliders with overlapping rects), one `update()` call logs FOUR `on_collide`
invocations — each body's callback fires twice, not "exactly once" as
claimed. -/
theorem physics_collision_counterexample :
    (PhysicsWorld.update c1World).2 = [(0, 1), (1, 0), (1, 0), (0, 1)] ∧
    ((PhysicsWorld.update c1World).2.countP fun e => e.1 == c1BodyA.id) = 2 ∧
    ((PhysicsWorld.update c1World).2.countP fun e => e.1 == c1BodyB.id) = 2 ∧
    ¬ ((PhysicsWorld.update c1World).2.countP fun e => e.1 == c1BodyA.id) = 1 := by
  decide

theorem physics_two_static_colliders_callbacks_witness :
    (PhysicsWorld.update c1World).1.bodies = [c1BodyA, c1BodyB] ∧
    (PhysicsWorld.update c1World).2 =
      [(c1BodyA.id, c1BodyB.id), (c1BodyB.id, c1BodyA.id),
       (c1BodyB.id, c1BodyA.id), (c1BodyA.id, c1BodyB.id)] ∧
    ((PhysicsWorld.update c1World).2.countP fun e => e.1 == c1BodyA.id) = 2 ∧
    ((PhysicsWorld.update c1World).2.countP fun e => e.1 == c1BodyB.id) = 2 ∧
    (∀ e ∈ (PhysicsWorld.update c1World).2,
      (e.1 = c1BodyA.id ∧ e.2 = c1BodyB.id) ∨ (e.1 = c1BodyB.id ∧ e.2 = c1BodyA.id)) ∧
    (PhysicsWorld.update c1World).1.bodies = c1World.bodies ∧
    c1BodyA.rect.colliderect c1BodyB.rect = true :=
  physics_two_static_colliders_callbacks c1World c1BodyA c1BodyB
    rfl (by decide) rfl rfl rfl rfl (by decide)

/-- `Animation`: frame list (frames are opaque image handles), playback speed,
loop flag, current index, fractional accumulator, playing flag. -/
structure Animation where
  frames : List Nat
  speed : Rat
  loop : Bool
  current_frame_index : Nat
  time_accumulator : Rat
  playing : Bool
deriving DecidableEq, Repr

/-- `Animation(frames, speed, loop)` constructor defaults. -/
def Animation.mk' (frames : List Nat) (speed : Rat) (loop : Bool) : Animation :=
  { frames := frames, speed := speed, loop := loop,
    current_frame_index := 0, time_accumulator := 0, playing := true }

/-- `Animation.update()`: accumulate `speed`; on reaching 1.0 reset the
accumulator and advance; past the last frame either wrap (looping) or clamp to
the last index and stop. Early-out when not playing or at most one frame. -/
def Animation.update (a : Animation) : Animation :=
  if a.playing = false ∨ a.frames.length ≤ 1 then a
  else
    let acc := a.time_accumulator + a.speed
    if 1 ≤ acc then
      let idx := a.current_frame_index + 1
      if a.frames.length ≤ idx then
        if a.loop = true then
          { a with time_accumulator := 0, current_frame_index := 0 }
        else
          { a with time_accumulator := 0, current_frame_index := a.frames.length - 1,
                   playing := false }
      else { a with time_accumulator := 0, current_frame_index := idx }
    else { a with time_accumulator := acc }

/-- `Animation.reset()`. -/
def Animation.reset (a : Animation) : Animation :=
  { a with current_frame_index := 0, time_accumulator := 0, playing := true }

theorem animation_update_of_stopped (a : Animation) (h : a.playing = false) :
    Animation.update a = a := by
  simp [Animation.update, h]

/-- C4: for every Animation with `loop=false`, once `playing` has become
false (which happens in the very update that passes the last frame, clamping
the index to `len(frames)-1`), every further `update()` is the identity — so
the frame index never changes again and `playing` is set to false exactly
once, remaining false for all subsequent updates. -/
theorem animation_nonloop_terminal (a : Animation) (hl : a.loop = false) :
    (∀ k : Nat, a.playing = false → Animation.update^[k] a = a) ∧
    (a.playing = true → (Animation.update a).playing = false →
      (Animation.update a).current_frame_index = a.frames.length - 1) := by
  constructor
  · intro k h
    induction k with
    | zero => rfl
    | succ n ih =>
      rw [Function.iterate_succ_apply, animation_update_of_stopped a h, ih]
  · intro hp hstop
    by_cases h0 : a.playing = false ∨ a.frames.length ≤ 1
    · rw [Animation.update, if_pos h0] at hstop
      rw [hstop] at hp
      exact absurd hp (by simp)
    · by_cases h1 : (1 : Rat) ≤ a.time_accumulator + a.speed
      · by_cases h2 : a.frames.length ≤ a.current_frame_index + 1
        · rw [Animation.update, if_neg h0] at hstop ⊢
          simp only [h1, if_pos, h2, hl] at hstop ⊢
          simp
        · rw [Animation.update, if_neg h0] at hstop
          simp only [h1, if_pos, h2, if_neg] at hstop
          simp at hstop
          rw [hstop] at hp
          exact absurd hp (by simp)
      · rw [Animation.update, if_neg h0] at hstop
        simp only [h1, if_neg] at hstop
        simp at hstop
        rw [hstop] at hp
        exact absurd hp (by simp)

def c4Anim : Animation :=
  { frames := [10, 20], speed := 1, loop := false,
    current_frame_index := 1, time_accumulator := 0, playing := true }

theorem animation_nonloop_terminal_witness :
    (∀ k : Nat, c4Anim.playing = false → Animation.update^[k] c4Anim = c4Anim) ∧
    (c4Anim.playing = true → (Animation.update c4Anim).playing = false →
      (Animation.update c4Anim).current_frame_index = c4Anim.frames.length - 1) :=
  animation_nonloop_terminal c4Anim rfl

/-- `Sprite`: position, velocity, optional image (opaque handle), transform
parameters, named animations, and the currently playing animation.
`current_animation` stores the dictionary key: `add_animation` always stores a
fresh `Animation` object, so the source's object-identity comparison
`self.current_animation != self.animations[name]` coincides with key
inequality. -/
structure Sprite where
  x : Rat
  y : Rat
  velocity : Rat × Rat
  image : Option Nat
  rotation : Rat
  scale : Rat
  flip_x : Bool
  flip_y : Bool
  animations : List (String × Animation)
  current_animation : Option String
deriving DecidableEq, Repr

/-- `Sprite.play_animation(name, restart)`: if `name` is unknown, do nothing;
otherwise switch to (and reset) that animation unless it is already current
and `restart` is false. Resetting mutates the shared `Animation` object, so
the stored dictionary entry is reset as well. -/
def Sprite.play_animation (s : Sprite) (name : String) (restart : Bool) : Sprite :=
  match List.lookup name s.animations with
  | none => s
  | some _ =>
    if s.current_animation ≠ some name ∨ restart = true then
      { s with current_animation := some name,
               animations := s.animations.map
                 (fun p => if p.1 = name then (p.1, Animation.reset p.2) else p) }
    else s

/-- `WardenEngine`: the scene registry and current scene, with scenes as
opaque handles. `Scene.enter`/`Scene.exit` are no-ops on the base class. -/
structure WardenEngine where
  scenes : List (String × Nat)
  current_scene : Option Nat
deriving DecidableEq, Repr

/-- `WardenEngine.set_scene(name)`: switch only if `name` is registered. -/
def WardenEngine.set_scene (e : WardenEngine) (name : String) : WardenEngine :=
  match List.lookup name e.scenes with
  | none => e
  | some s => { e with current_scene := some s }

/-- `range(a, b)` over integers. -/
def intRange (a b : Int) : List Int :=
  (List.range (b - a).toNat).map (fun k : Nat => a + (k : Int))

theorem mem_intRange {a b x : Int} : x ∈ intRange a b ↔ a ≤ x ∧ x < b := by
  simp only [intRange, List.mem_map, List.mem_range]
  constructor
  · rintro ⟨k, hk, rfl⟩
    omega
  · intro h
    exact ⟨(x - a).toNat, by omega, by omega⟩

/-- `Tilemap`: sparse cell dictionary `(x, y) → tile index`, tileset
dictionary `tile index → image handle`, and map dimensions. -/
structure Tilemap where
  tile_size : Int
  tiles : List ((Int × Int) × Int)
  tileset : List (Int × Nat)
  width : Int
  height : Int
deriving DecidableEq, Repr

/-- `start_x` of the visible area in `Tilemap.draw` (`max(0, cam.rect.x //
tile_size)` with a camera, else 0); Python `//` is floor division. -/
def Tilemap.start_x (tm : Tilemap) (cam : Option Camera) : Int :=
  match cam with
  | none => 0
  | some c => max 0 (Int.fdiv c.rect.x tm.tile_size)

def Tilemap.start_y (tm : Tilemap) (cam : Option Camera) : Int :=
  match cam with
  | none => 0
  | some c => max 0 (Int.fdiv c.rect.y tm.tile_size)

/-- `end_x` of the visible area (`min(width, (cam.rect.x + cam.rect.width) //
tile_size + 1)` with a camera, else `width`). -/
def Tilemap.end_x (tm : Tilemap) (cam : Option Camera) : Int :=
  match cam with
  | none => tm.width
  | some c => min tm.width (Int.fdiv (c.rect.x + c.rect.w) tm.tile_size + 1)

def Tilemap.end_y (tm : Tilemap) (cam : Option Camera) : Int :=
  match cam with
  | none => tm.height
  | some c => min tm.height (Int.fdiv (c.rect.y + c.rect.h) tm.tile_size + 1)

/-- The device position a tile at cell `(x, y)` is blitted at: the world
position `(x*tile_size, y*tile_size)` transformed by the camera if present.
All quantities are Python ints here, so `Camera.apply_pos` degenerates to
integer subtraction (see `devicePos_eq_apply_pos`). -/
def Tilemap.devicePos (tm : Tilemap) (cam : Option Camera) (x y : Int) : Int × Int :=
  match cam with
  | none => (x * tm.tile_size, y * tm.tile_size)
  | some c => (x * tm.tile_size - c.rect.x, y * tm.tile_size - c.rect.y)

theorem devicePos_eq_apply_pos (tm : Tilemap) (c : Camera) (x y : Int) :
    (((tm.devicePos (some c) x y).1 : Rat), ((tm.devicePos (some c) x y).2 : Rat)) =
      c.apply_pos (((x * tm.tile_size : Int) : Rat), ((y * tm.tile_size : Int) : Rat)) := by
  simp only [Tilemap.devicePos, Camera.apply_pos]
  rw [Prod.mk.injEq]
  constructor <;> push_cast <;> ring

/-- The body of the inner loop of `Tilemap.draw`: blit cell `(x, y)` only if
it is present in the sparse map and its tile index is present in the tileset. -/
def Tilemap.cellDraw (tm : Tilemap) (cam : Option Camera) (x y : Int) :
    List ((Int × Int) × (Int × Int) × Nat) :=
  match List.lookup (x, y) tm.tiles with
  | none => []
  | some tile_index =>
    match List.lookup tile_index tm.tileset with
    | none => []
    | some img => [((x, y), tm.devicePos cam x y, img)]

/-- `Tilemap.draw()` as the list of performed blits, in loop order: for each
drawn cell, its grid coordinate, device position and image handle. -/
def Tilemap.drawList (tm : Tilemap) (cam : Option Camera) :
    List ((Int × Int) × (Int × Int) × Nat) :=
  (intRange (tm.start_y cam) (tm.end_y cam)).flatMap (fun y =>
    (intRange (tm.start_x cam) (tm.end_x cam)).flatMap (fun x =>
      tm.cellDraw cam x y))

theorem mem_cellDraw {tm : Tilemap} {cam : Option Camera} {x y : Int}
    {e : (Int × Int) × (Int × Int) × Nat} :
    e ∈ tm.cellDraw cam x y ↔
      ∃ ti img, List.lookup (x, y) tm.tiles = some ti ∧
        List.lookup ti tm.tileset = some img ∧
        e = ((x, y), tm.devicePos cam x y, img) := by
  cases h1 : List.lookup (x, y) tm.tiles with
  | none => simp [Tilemap.cellDraw, h1]
  | some ti =>
    cases h2 : List.lookup ti tm.tileset with
    | none => simp [Tilemap.cellDraw, h1, h2]
    | some img => simp [Tilemap.cellDraw, h1, h2]

theorem mem_drawList {tm : Tilemap} {cam : Option Camera}
    {e : (Int × Int) × (Int × Int) × Nat} :
    e ∈ tm.drawList cam ↔
      ∃ x y ti img, tm.start_x cam ≤ x ∧ x < tm.end_x cam ∧
        tm.start_y cam ≤ y ∧ y < tm.end_y cam ∧
        List.lookup (x, y) tm.tiles = some ti ∧
        List.lookup ti tm.tileset = some img ∧
        e = ((x, y), tm.devicePos cam x y, img) := by
  simp only [Tilemap.drawList, List.mem_flatMap, mem_intRange, mem_cellDraw]
  constructor
  · rintro ⟨y, ⟨hy1, hy2⟩, x, ⟨hx1, hx2⟩, ti, img, h1, h2, rfl⟩
    exact ⟨x, y, ti, img, hx1, hx2, hy1, hy2, h1, h2, rfl⟩
  · rintro ⟨x, y, ti, img, hx1, hx2, hy1, hy2, h1, h2, rfl⟩
    exact ⟨y, ⟨hy1, hy2⟩, x, ⟨hx1, hx2⟩, ti, img, h1, h2, rfl⟩

/-- A 10x10 map with only cell (0,0) populated (tile index 0, present in the
tileset as image handle 42), tile_size 32. -/
def c7Tilemap : Tilemap :=
  { tile_size := 32, tiles := [((0, 0), 0)], tileset := [(0, 42)],
    width := 10, height := 10 }

/-- A camera whose viewport sits at the origin with size 64x64. -/
def c7Camera : Camera := Camera.mk' 64 64

/-- C7: `Tilemap.draw` blits exactly those cells that are present in the
sparse map, whose tile index is present in the tileset, and whose grid
coordinates lie within the camera-derived visible bounds (floor-divided
viewport edges, clamped to the map, inclusive of one extra boundary tile);
each drawn tile lands at the camera's forward position transform of its world
position; concretely, the 10x10 map `c7Tilemap` with only (0,0) populated and
a 64x64 viewport at the origin draws exactly one tile, at device position
(0, 0). -/
theorem tilemap_draw_visible (tm : Tilemap) (c : Camera) (_hts : 0 < tm.tile_size)
    (x y : Int) (pos : Int × Int) (img : Nat) :
    (((x, y), pos, img) ∈ tm.drawList (some c) ↔
      (tm.start_x (some c) ≤ x ∧ x < tm.end_x (some c) ∧
       tm.start_y (some c) ≤ y ∧ y < tm.end_y (some c) ∧
       (∃ ti, List.lookup (x, y) tm.tiles = some ti ∧
         List.lookup ti tm.tileset = some img) ∧
       pos = tm.devicePos (some c) x y)) ∧
    (((tm.devicePos (some c) x y).1 : Rat), ((tm.devicePos (some c) x y).2 : Rat)) =
      c.apply_pos (((x * tm.tile_size : Int) : Rat), ((y * tm.tile_size : Int) : Rat)) ∧
    c7Tilemap.drawList (some c7Camera) = [((0, 0), (0, 0), 42)] := by
  refine ⟨?_, devicePos_eq_apply_pos tm c x y, by decide⟩
  rw [mem_drawList]
  constructor
  · rintro ⟨x', y', ti, img', hx1, hx2, hy1, hy2, h1, h2, heq⟩
    simp only [Prod.mk.injEq] at heq
    obtain ⟨⟨hx, hy⟩, hpos, himg⟩ := heq
    subst hx; subst hy; subst hpos; subst himg
    exact ⟨hx1, hx2, hy1, hy2, ⟨ti, h1, h2⟩, rfl⟩
  · rintro ⟨hx1, hx2, hy1, hy2, ⟨ti, h1, h2⟩, rfl⟩
    exact ⟨x, y, ti, img, hx1, hx2, hy1, hy2, h1, h2, rfl⟩

theorem tilemap_draw_visible_witness :
    (((0, 0), ((0 : Int), (0 : Int)), 42) ∈ c7Tilemap.drawList (some c7Camera) ↔
      (c7Tilemap.start_x (some c7Camera) ≤ 0 ∧ 0 < c7Tilemap.end_x (some c7Camera) ∧
       c7Tilemap.start_y (some c7Camera) ≤ 0 ∧ 0 < c7Tilemap.end_y (some c7Camera) ∧
       (∃ ti, List.lookup ((0 : Int), (0 : Int)) c7Tilemap.tiles = some ti ∧
         List.lookup ti c7Tilemap.tileset = some 42) ∧
       ((0 : Int), (0 : Int)) = c7Tilemap.devicePos (some c7Camera) 0 0)) ∧
    (((c7Tilemap.devicePos (some c7Camera) 0 0).1 : Rat),
      ((c7Tilemap.devicePos (some c7Camera) 0 0).2 : Rat)) =
      c7Camera.apply_pos (((0 * c7Tilemap.tile_size : Int) : Rat),
        ((0 * c7Tilemap.tile_size : Int) : Rat)) ∧
    c7Tilemap.drawList (some c7Camera) = [((0, 0), (0, 0), 42)] :=
  tilemap_draw_visible c7Tilemap c7Camera (by decide) 0 0 (0, 0) 42

/-- C9: out-of-range lookups are no-ops: `play_animation` with an unknown name
changes no state; `Tilemap.draw` silently skips a populated cell whose tile
index is absent from the tileset; `set_scene` with an unregistered name leaves
the engine unchanged. (Python raises nothing here: each site guards the
lookup with a membership test.) -/
theorem missing_lookups_are_noops
    (s : Sprite) (aname : String) (hs : List.lookup aname s.animations = none)
    (e : WardenEngine) (sname : String) (he : List.lookup sname e.scenes = none)
    (tm : Tilemap) (cam : Option Camera) (x y ti : Int)
    (ht : List.lookup (x, y) tm.tiles = some ti)
    (hmiss : List.lookup ti tm.tileset = none) :
    (∀ restart, s.play_animation aname restart = s) ∧
    e.set_scene sname = e ∧
    (∀ pos img, ((x, y), pos, img) ∉ tm.drawList cam) := by
  refine ⟨?_, ?_, ?_⟩
  · intro restart
    simp [Sprite.play_animation, hs]
  · simp [WardenEngine.set_scene, he]
  · intro pos img hmem
    rw [mem_drawList] at hmem
    obtain ⟨x', y', ti', img', _, _, _, _, h1, h2, heq⟩ := hmem
    simp only [Prod.mk.injEq] at heq
    obtain ⟨⟨hx, hy⟩, _, _⟩ := heq
    subst hx; subst hy
    rw [ht] at h1
    obtain rfl : ti = ti' := by injection h1
    rw [hmiss] at h2
    cases h2

def c9Sprite : Sprite :=
  { x := 0, y := 0, velocity := (0, 0), image := none, rotation := 0, scale := 1,
    flip_x := false, flip_y := false, animations := [("walk", c4Anim)],
    current_animation := none }

def c9Engine : WardenEngine := { scenes := [("menu", 0)], current_scene := some 0 }

/-- A map whose populated cell (5,5) holds tile index 7, absent from the
tileset. -/
def c9Tilemap : Tilemap :=
  { tile_size := 32, tiles := [((5, 5), 7)], tileset := [(0, 42)],
    width := 10, height := 10 }

theorem missing_lookups_are_noops_witness :
    (∀ restart, c9Sprite.play_animation "idle" restart = c9Sprite) ∧
    c9Engine.set_scene "level1" = c9Engine ∧
    (∀ pos img, (((5 : Int), (5 : Int)), pos, img) ∉ c9Tilemap.drawList none) :=
  missing_lookups_are_noops c9Sprite "idle" (by decide) c9Engine "level1" (by decide)
    c9Tilemap none 5 5 7 (by decide) (by decide)

/-- `Particle`: position, velocity, lifetime counters, color, size, alpha,
decay flag. -/
structure Particle where
  x : Rat
  y : Rat
  velocity : Rat × Rat
  lifetime : Rat
  max_lifetime : Rat
  color : Int × Int × Int
  size : Int
  alpha : Int
  decay : Bool
deriving DecidableEq, Repr

/-- `Particle(x, y)` constructor defaults. -/
def Particle.mk' (x y : Rat) : Particle :=
  { x := x, y := y, velocity := (0, 0), lifetime := 1, max_lifetime := 1,
    color := (255, 255, 255), size := 4, alpha := 255, decay := true }

/-- The state change of `Particle.update(dt)`: move by `velocity * dt`; if
decaying, decrease the lifetime by `dt` and set
`alpha = int(255 * lifetime / max_lifetime)` from the NEW lifetime. -/
def Particle.updateState (dt : Rat) (p : Particle) : Particle :=
  let moved := { p with x := p.x + p.velocity.1 * dt, y := p.y + p.velocity.2 * dt }
  if p.decay = true then
    { moved with lifetime := p.lifetime - dt,
                 alpha := pyTrunc (255 * ((p.lifetime - dt) / p.max_lifetime)) }
  else moved

/-- The boolean returned by `Particle.update(dt)` (evaluated on the post-update
state): `lifetime > 0`. -/
def Particle.alive (p : Particle) : Bool := decide (0 < p.lifetime)

theorem updateState_alpha (q : Particle) (dt : Rat) (hd : q.decay = true) :
    (Particle.updateState dt q).alpha =
      pyTrunc (255 * ((q.lifetime - dt) / q.max_lifetime)) := by
  simp [Particle.updateState, hd]

theorem eraseIdx_append_cons {α : Type} (l r : List α) (x : α) :
    (l ++ x :: r).eraseIdx l.length = l ++ r := by
  induction l with
  | nil => rfl
  | cons a l ih => simp [List.eraseIdx, ih]

/-- The update-and-remove loop of `ParticleSystem.update`:
`for i in range(len(particles)-1, -1, -1): if not particles[i].update(dt):
particles.pop(i)`. The `Nat` argument is the number of low indices still to
visit, so the loop starts at the length and visits `i-1` first. -/
def ParticleSystem.popDead (dt : Rat) : Nat → List Particle → List Particle
  | 0, ps => ps
  | i + 1, ps =>
    match ps[i]? with
    | none => ParticleSystem.popDead dt i ps
    | some p =>
      let p' := Particle.updateState dt p
      if p'.alive = true then ParticleSystem.popDead dt i (ps.set i p')
      else ParticleSystem.popDead dt i (ps.eraseIdx i)

/-- Reverse-index pop-removal is update-then-filter: indices above the cursor
are already final, and popping index `i` shifts only them. -/
theorem popDead_eq_filter (dt : Rat) (front back : List Particle) :
    ParticleSystem.popDead dt front.length (front ++ back) =
      ((front.map (Particle.updateState dt)).filter Particle.alive) ++ back := by
  induction front using List.reverseRecOn generalizing back with
  | nil => simp [ParticleSystem.popDead]
  | append_singleton fs p ih =>
    have hlen : (fs ++ [p]).length = fs.length + 1 := by simp
    have hassoc : (fs ++ [p]) ++ back = fs ++ p :: back := by simp
    rw [hlen, hassoc, ParticleSystem.popDead, getElem?_append_cons]
    simp only
    by_cases halive : (Particle.updateState dt p).alive = true
    · rw [if_pos halive, set_append_cons, ih]
      simp [List.filter_append, halive]
    · rw [if_neg halive, eraseIdx_append_cons, ih]
      simp only [List.map_append, List.map_cons, List.map_nil, List.filter_append]
      rw [List.filter_cons]
      simp [halive]

theorem popDead_all (dt : Rat) (l : List Particle) :
    ParticleSystem.popDead dt l.length l =
      (l.map (Particle.updateState dt)).filter Particle.alive := by
  have := popDead_eq_filter dt l []
  simpa using this

/-- The random draws consumed by one `emit_particle()` call
(`random.uniform` offsets/velocity/lifetime, `random.randint` color/size). -/
structure EmitRand where
  dx : Rat
  dy : Rat
  vx : Rat
  vy : Rat
  c1 : Int
  c2 : Int
  c3 : Int
  life : Rat
  size : Int
deriving DecidableEq, Repr, Inhabited

/-- `ParticleSystem`: particle list, capacity, emission rate/accumulator. -/
structure ParticleSystem where
  x : Rat
  y : Rat
  particles : List Particle
  max_particles : Int
  emission_rate : Rat
  emission_accumulator : Rat
  active : Bool
  emission_area : Rat × Rat
deriving DecidableEq, Repr

/-- `ParticleSystem(x, y, max_particles)` constructor defaults. -/
def ParticleSystem.mk' (x y : Rat) (max_particles : Int) : ParticleSystem :=
  { x := x, y := y, particles := [], max_particles := max_particles,
    emission_rate := 10, emission_accumulator := 0, active := true,
    emission_area := (0, 0) }

/-- The particle built by `emit_particle()` from the drawn random values. -/
def ParticleSystem.emitted (sx sy : Rat) (r : EmitRand) : Particle :=
  { Particle.mk' (sx + r.dx) (sy + r.dy) with
    velocity := (r.vx, r.vy), color := (r.c1, r.c2, r.c3),
    max_lifetime := r.life, lifetime := r.life, size := r.size }

/-- `emit_particle()`: append one freshly built particle. -/
def ParticleSystem.emit_particle (s : ParticleSystem) (r : EmitRand) : ParticleSystem :=
  { s with particles := s.particles ++ [ParticleSystem.emitted s.x s.y r] }

/-- The `while emission_accumulator >= 1.0 and len(particles) < max_particles`
loop: each pass emits one particle and decrements the accumulator by 1. Every
pass grows the list by one and requires `len < max`, so
`(max - len).toNat` passes always suffice; the loop is run on that fuel. -/
def ParticleSystem.emitLoop (rs : List EmitRand) : Nat → ParticleSystem → ParticleSystem
  | 0, s => s
  | fuel + 1, s =>
    if 1 ≤ s.emission_accumulator ∧ (s.particles.length : Int) < s.max_particles then
      ParticleSystem.emitLoop rs.tail fuel
        { s.emit_particle (rs.headD default) with
          emission_accumulator := s.emission_accumulator - 1 }
    else s

/-- `ParticleSystem.update()`: fixed `dt = 1/60`; update existing particles in
reverse order, removing the dead; then, if active and below capacity, grow the
accumulator by `emission_rate * dt` and run the emission loop. -/
def ParticleSystem.update (s : ParticleSystem) (rs : List EmitRand) : ParticleSystem :=
  let dt : Rat := 1/60
  let s1 := { s with particles := ParticleSystem.popDead dt s.particles.length s.particles }
  if s1.active = true ∧ (s1.particles.length : Int) < s1.max_particles then
    ParticleSystem.emitLoop rs
      (s1.max_particles - s1.particles.length).toNat
      { s1 with emission_accumulator := s1.emission_accumulator + s1.emission_rate * dt }
  else s1

/-- `burst(count)`: emit `min(count, max_particles - len(particles))`
particles at once (the bound is computed once, before the loop). -/
def ParticleSystem.burst (s : ParticleSystem) (count : Int) (rs : List EmitRand) :
    ParticleSystem :=
  let k := (min count (s.max_particles - s.particles.length)).toNat
  (List.range k).foldl (fun s' j => s'.emit_particle (rs.getD j default)) s

theorem emit_particle_fields (s : ParticleSystem) (r : EmitRand) :
    (s.emit_particle r).particles.length = s.particles.length + 1 ∧
    (s.emit_particle r).max_particles = s.max_particles := by
  simp [ParticleSystem.emit_particle]

theorem emitLoop_invariant (fuel : Nat) (rs : List EmitRand) (s : ParticleSystem)
    (h : (s.particles.length : Int) ≤ s.max_particles) :
    ((ParticleSystem.emitLoop rs fuel s).particles.length : Int) ≤ s.max_particles ∧
    (ParticleSystem.emitLoop rs fuel s).max_particles = s.max_particles := by
  induction fuel generalizing rs s with
  | zero => exact ⟨h, rfl⟩
  | succ n ih =>
    rw [ParticleSystem.emitLoop]
    by_cases hc : 1 ≤ s.emission_accumulator ∧ (s.particles.length : Int) < s.max_particles
    · rw [if_pos hc]
      have h' := ih rs.tail
        { s.emit_particle (rs.headD default) with
          emission_accumulator := s.emission_accumulator - 1 }
        (by simp [ParticleSystem.emit_particle]; omega)
      simpa [ParticleSystem.emit_particle] using h'
    · rw [if_neg hc]
      exact ⟨h, rfl⟩

theorem burst_count (s : ParticleSystem) (count : Int) (rs : List EmitRand) :
    (s.burst count rs).particles.length =
      s.particles.length + (min count (s.max_particles - s.particles.length)).toNat ∧
    (s.burst count rs).max_particles = s.max_particles := by
  have key : ∀ (k : Nat) (t : ParticleSystem),
      (((List.range k).foldl (fun s' j => s'.emit_particle (rs.getD j default)) t).particles.length =
        t.particles.length + k) ∧
      ((List.range k).foldl (fun s' j => s'.emit_particle (rs.getD j default)) t).max_particles =
        t.max_particles := by
    intro k
    induction k with
    | zero => intro t; simp
    | succ n ih =>
      intro t
      rw [List.range_succ, List.foldl_append]
      have h1 := (ih t).1
      have h2 := (ih t).2
      constructor
      · simp only [List.foldl_cons, List.foldl_nil]
        rw [(emit_particle_fields _ _).1, h1]
        omega
      · simp only [List.foldl_cons, List.foldl_nil]
        rw [(emit_particle_fields _ _).2, h2]
  exact key ((min count (s.max_particles - s.particles.length)).toNat) s

theorem update_invariant (s : ParticleSystem) (rs : List EmitRand)
    (h : (s.particles.length : Int) ≤ s.max_particles) :
    ((s.update rs).particles.length : Int) ≤ s.max_particles ∧
    (s.update rs).max_particles = s.max_particles := by
  rw [ParticleSystem.update]
  simp only [popDead_all]
  set l1 := (s.particles.map (Particle.updateState (1/60))).filter Particle.alive with hl1
  have hlen1 : (l1.length : Int) ≤ s.max_particles := by
    have : l1.length ≤ s.particles.length := by
      rw [hl1]
      exact le_trans (List.length_filter_le _ _) (by simp)
    omega
  by_cases hc : s.active = true ∧ ((l1.length : Int) < s.max_particles)
  · rw [if_pos (by simpa using hc)]
    have := emitLoop_invariant (s.max_particles - l1.length).toNat rs
      { s with particles := l1,
               emission_accumulator := s.emission_accumulator + s.emission_rate * (1/60) }
      (by simpa using hlen1)
    simpa using this
  · rw [if_neg (by simpa using hc)]
    simpa using hlen1

/-- One external call on a `ParticleSystem`: `update()` or `burst(n)`, with
the random draws it may consume. -/
inductive PSOp where
  | update (rs : List EmitRand)
  | burst (n : Int) (rs : List EmitRand)
deriving Repr

/-- Run a sequence of `update()`/`burst(n)` calls. -/
def ParticleSystem.runOps (s : ParticleSystem) : List PSOp → ParticleSystem
  | [] => s
  | PSOp.update rs :: rest => ParticleSystem.runOps (s.update rs) rest
  | PSOp.burst n rs :: rest => ParticleSystem.runOps (s.burst n rs) rest

theorem runOps_invariant (ops : List PSOp) (s : ParticleSystem)
    (h : (s.particles.length : Int) ≤ s.max_particles) :
    ((s.runOps ops).particles.length : Int) ≤ s.max_particles ∧
    (s.runOps ops).max_particles = s.max_particles := by
  induction ops generalizing s with
  | nil => exact ⟨h, rfl⟩
  | cons op rest ih =>
    cases op with
    | update rs =>
      rw [ParticleSystem.runOps]
      obtain ⟨h1, h2⟩ := update_invariant s rs h
      obtain ⟨h3, h4⟩ := ih (s.update rs) (by omega)
      rw [h2] at h3 h4
      exact ⟨h3, h4⟩
    | burst n rs =>
      rw [ParticleSystem.runOps]
      obtain ⟨h1, h2⟩ := burst_count s n rs
      have hle : ((s.burst n rs).particles.length : Int) ≤ (s.burst n rs).max_particles := by
        rw [h1, h2]
        omega
      obtain ⟨h3, h4⟩ := ih (s.burst n rs) hle
      rw [h2] at h3 h4
      exact ⟨h3, h4⟩

/-- C5: starting from an empty particle list (and a nonnegative capacity, as
every real construction uses), no finite sequence of `update()` and `burst(n)`
calls ever pushes the particle count beyond `max_particles`; in particular
`burst(n)` with `0 ≤ n` on any system within capacity emits exactly
`min(n, max_particles - current_count)` particles — so at most that many. -/
theorem particle_count_bounded (s0 : ParticleSystem) (hempty : s0.particles = [])
    (hmax : 0 ≤ s0.max_particles) (ops : List PSOp) :
    ((s0.runOps ops).particles.length : Int) ≤ s0.max_particles ∧
    (∀ (t : ParticleSystem) (n : Int) (rs : List EmitRand),
      0 ≤ n → (t.particles.length : Int) ≤ t.max_particles →
      ((t.burst n rs).particles.length : Int) =
        (t.particles.length : Int) + min n (t.max_particles - (t.particles.length : Int)) ∧
      ((t.burst n rs).particles.length : Int) - (t.particles.length : Int) ≤
        min n (t.max_particles - (t.particles.length : Int))) := by
  constructor
  · exact (runOps_invariant ops s0 (by rw [hempty]; simpa using hmax)).1
  · intro t n rs hn ht
    have h1 := (burst_count t n rs).1
    have hmin : (0 : Int) ≤ min n (t.max_particles - (t.particles.length : Int)) := by
      omega
    constructor
    · rw [h1]
      push_cast
      omega
    · rw [h1]
      push_cast
      omega

def c5System : ParticleSystem := ParticleSystem.mk' 0 0 100

theorem particle_count_bounded_witness :
    ((c5System.runOps [PSOp.burst 250 [], PSOp.update [], PSOp.burst 7 []]).particles.length : Int) ≤
      c5System.max_particles ∧
    (∀ (t : ParticleSystem) (n : Int) (rs : List EmitRand),
      0 ≤ n → (t.particles.length : Int) ≤ t.max_particles →
      ((t.burst n rs).particles.length : Int) =
        (t.particles.length : Int) + min n (t.max_particles - (t.particles.length : Int)) ∧
      ((t.burst n rs).particles.length : Int) - (t.particles.length : Int) ≤
        min n (t.max_particles - (t.particles.length : Int))) :=
  particle_count_bounded c5System rfl (by decide)
    [PSOp.burst 250 [], PSOp.update [], PSOp.burst 7 []]

theorem emitLoop_particles_grow (fuel : Nat) (rs : List EmitRand) (s : ParticleSystem) :
    ∃ tail, (ParticleSystem.emitLoop rs fuel s).particles = s.particles ++ tail := by
  induction fuel generalizing rs s with
  | zero => exact ⟨[], by simp [ParticleSystem.emitLoop]⟩
  | succ n ih =>
    rw [ParticleSystem.emitLoop]
    by_cases hc : 1 ≤ s.emission_accumulator ∧ (s.particles.length : Int) < s.max_particles
    · rw [if_pos hc]
      obtain ⟨t, ht⟩ := ih rs.tail
        { s.emit_particle (rs.headD default) with
          emission_accumulator := s.emission_accumulator - 1 }
      refine ⟨[ParticleSystem.emitted s.x s.y (rs.headD default)] ++ t, ?_⟩
      rw [ht]
      simp [ParticleSystem.emit_particle]
    · rw [if_neg hc]
      exact ⟨[], by simp⟩

/-- C6 (amended): for a decaying particle, one `update(dt)` sets the lifetime
to `lifetime - dt` and recomputes `alpha = int(255 * lifetime/max_lifetime)`,
so alpha is 0 exactly when the remaining lifetime lies strictly within
`±max_lifetime/255` — which can happen strictly BEFORE the lifetime reaches 0;
the particle survives the call exactly when the new lifetime is positive, and
`ParticleSystem.update` retains (in order) exactly the updated old particles
whose new lifetime is positive, removing the others on that very call, with
freshly emitted particles only appended after them. -/
theorem particle_alpha_and_removal (p : Particle) (dt : Rat) (hd : p.decay = true)
    (hL : 0 < p.max_lifetime) :
    (Particle.updateState dt p).lifetime = p.lifetime - dt ∧
    ((Particle.updateState dt p).alpha = 0 ↔
      -(p.max_lifetime / 255) < p.lifetime - dt ∧ p.lifetime - dt < p.max_lifetime / 255) ∧
    (Particle.alive (Particle.updateState dt p) = true ↔ 0 < p.lifetime - dt) ∧
    (∀ (s : ParticleSystem) (rs : List EmitRand), ∃ tail,
      (s.update rs).particles =
        ((s.particles.map (Particle.updateState (1/60))).filter Particle.alive) ++ tail) := by
  refine ⟨by simp [Particle.updateState, hd], ?_, ?_, ?_⟩
  · rw [updateState_alpha p dt hd, pyTrunc_eq_zero_iff]
    have key : 255 * ((p.lifetime - dt) / p.max_lifetime) =
        (255 * (p.lifetime - dt)) / p.max_lifetime := by ring
    rw [key, lt_div_iff₀ hL, div_lt_iff₀ hL]
    constructor
    · rintro ⟨h1, h2⟩
      exact ⟨by linarith, by linarith⟩
    · rintro ⟨h1, h2⟩
      exact ⟨by linarith, by linarith⟩
  · simp [Particle.alive, Particle.updateState, hd]
  · intro s rs
    rw [ParticleSystem.update]
    simp only [popDead_all]
    by_cases hc : s.active = true ∧
        ((((s.particles.map (Particle.updateState (1/60))).filter Particle.alive).length : Int) <
          s.max_particles)
    · rw [if_pos (by simpa using hc)]
      obtain ⟨t, ht⟩ := emitLoop_particles_grow
        (s.max_particles -
          ((s.particles.map (Particle.updateState (1/60))).filter Particle.alive).length).toNat rs
        { s with particles := (s.particles.map (Particle.updateState (1/60))).filter Particle.alive,
                 emission_accumulator := s.emission_accumulator + s.emission_rate * (1/60) }
      exact ⟨t, by simpa using ht⟩
    · rw [if_neg (by simpa using hc)]
      exact ⟨[], by simp⟩

def c6WitnessParticle : Particle := Particle.mk' 0 0

theorem particle_alpha_and_removal_witness :
    (Particle.updateState 1 c6WitnessParticle).lifetime = c6WitnessParticle.lifetime - 1 ∧
    ((Particle.updateState 1 c6WitnessParticle).alpha = 0 ↔
      -(c6WitnessParticle.max_lifetime / 255) < c6WitnessParticle.lifetime - 1 ∧
      c6WitnessParticle.lifetime - 1 < c6WitnessParticle.max_lifetime / 255) ∧
    (Particle.alive (Particle.updateState 1 c6WitnessParticle) = true ↔
      0 < c6WitnessParticle.lifetime - 1) ∧
    (∀ (s : ParticleSystem) (rs : List EmitRand), ∃ tail,
      (s.update rs).particles =
        ((s.particles.map (Particle.updateState (1/60))).filter Particle.alive) ++ tail) :=
  particle_alpha_and_removal c6WitnessParticle 1 rfl (by decide)

theorem updateState_iterate_decay (p : Particle) (hd : p.decay = true) (dt : Rat) (k : Nat) :
    ((Particle.updateState dt)^[k] p).lifetime = p.lifetime - (k : Rat) * dt ∧
    ((Particle.updateState dt)^[k] p).decay = true ∧
    ((Particle.updateState dt)^[k] p).max_lifetime = p.max_lifetime := by
  induction k with
  | zero => simp [hd]
  | succ n ih =>
    obtain ⟨h1, h2, h3⟩ := ih
    rw [Function.iterate_succ_apply']
    refine ⟨?_, by simp [Particle.updateState, h2], by simp [Particle.updateState, h2, h3]⟩
    simp only [Particle.updateState, h2, if_pos, h1]
    push_cast
    ring

/-- A fresh particle with `max_lifetime = lifetime = 5` (the engine lets user
code emit custom particles; `emit_particle` is documented as the override
point). -/
def c6Particle : Particle := { Particle.mk' 0 0 with lifetime := 5, max_lifetime := 5 }

/-- C6 (counterexample): a decaying particle with `max_lifetime = 5`, after
299 updates at the fixed `dt = 1/60`, has `alpha = 0` — `int(255*(1/60)/5) =
int(0.85) = 0` — while its lifetime `1/60` is still positive, so it is still
alive and is NOT removed on that call: alpha reaches 0 strictly before the
lifetime reaches 0, refuting "alpha becomes 0 exactly when lifetime reaches
0". -/
theorem particle_alpha_zero_early_counterexample :
    ((Particle.updateState (1/60))^[299] c6Particle).alpha = 0 ∧
    0 < ((Particle.updateState (1/60))^[299] c6Particle).lifetime ∧
    Particle.alive ((Particle.updateState (1/60))^[299] c6Particle) = true := by
  have hd : c6Particle.decay = true := rfl
  have h298 := updateState_iterate_decay c6Particle hd (1/60) 298
  have h299 := updateState_iterate_decay c6Particle hd (1/60) 299
  have hstep : (Particle.updateState (1/60))^[299] c6Particle =
      Particle.updateState (1/60) ((Particle.updateState (1/60))^[298] c6Particle) := by
    rw [show (299 : Nat) = 298 + 1 from rfl, Function.iterate_succ_apply']
  have hlife : 0 < ((Particle.updateState (1/60))^[299] c6Particle).lifetime := by
    rw [h299.1]
    norm_num [c6Particle, Particle.mk']
  refine ⟨?_, hlife, ?_⟩
  · rw [hstep, updateState_alpha _ _ h298.2.1, h298.1, h298.2.2]
    rw [pyTrunc_eq_zero_iff]
    constructor <;> norm_num [c6Particle, Particle.mk']
  · simp only [Particle.alive, decide_eq_true_eq]
    exact hlife

/-- The three-way button state `{'normal', 'hover', 'click'}`. -/
inductive BState where
  | normal
  | hover
  | click
deriving DecidableEq, Repr

/-- The pygame events `Button.handle_event` inspects. -/
inductive PyEvent where
  | mouseButtonDown (button : Nat) (pos : Int × Int)
  | mouseButtonUp (button : Nat) (pos : Int × Int)
  | mouseMotion (pos : Int × Int)
  | other
deriving DecidableEq, Repr

/-- `Button`: rect, interactivity flag, current state. The `on_click`
callback is modelled as installed, with `clicks` counting its invocations. -/
structure Button where
  rect : PyRect
  interactive : Bool
  current_state : BState
  clicks : Nat
deriving DecidableEq, Repr

/-- `Button.handle_event(event)`: left-press inside sets state to click;
left-release inside while in click state fires `on_click` and moves to hover;
motion inside moves to hover unless in click state; motion outside resets to
normal. Returns the updated button and the consumed flag. -/
def Button.handle_event (b : Button) (e : PyEvent) : Button × Bool :=
  if b.interactive = false then (b, false)
  else
    match e with
    | PyEvent.mouseButtonDown button pos =>
      if button = 1 ∧ b.rect.collidepoint pos = true then
        ({ b with current_state := BState.click }, true)
      else (b, false)
    | PyEvent.mouseButtonUp button pos =>
      if button = 1 ∧ b.rect.collidepoint pos = true ∧ b.current_state = BState.click then
        ({ b with clicks := b.clicks + 1, current_state := BState.hover }, true)
      else (b, false)
    | PyEvent.mouseMotion pos =>
      if b.rect.collidepoint pos = true then
        if b.current_state ≠ BState.click then
          ({ b with current_state := BState.hover }, false)
        else (b, false)
      else ({ b with current_state := BState.normal }, false)
    | PyEvent.other => (b, false)

/-- Deliver a sequence of events to a button. -/
def Button.processEvents (b : Button) (es : List PyEvent) : Button :=
  es.foldl (fun b' e => (b'.handle_event e).1) b

/-- `Button.update()` (the polling path): from the polled mouse position and
left-button state; in the hover branch the source drains the queued
MOUSEBUTTONUP events and fires `on_click` once per queued left-release event.
`ups` is the number of such queued events. -/
def Button.update (b : Button) (mouse_pos : Int × Int) (pressed : Bool) (ups : Nat) : Button :=
  if b.rect.collidepoint mouse_pos = true then
    if pressed = true then { b with current_state := BState.click }
    else { b with current_state := BState.hover, clicks := b.clicks + ups }
  else { b with current_state := BState.normal }

theorem processEvents_motions_inside (b : Button) (ms : List (Int × Int))
    (hms : ∀ m ∈ ms, b.rect.collidepoint m = true)
    (hstate : b.current_state = BState.click) :
    b.processEvents (ms.map PyEvent.mouseMotion) = b := by
  induction ms with
  | nil => rfl
  | cons m ms ih =>
    have hstep : (b.handle_event (PyEvent.mouseMotion m)).1 = b := by
      by_cases hi : b.interactive = false
      · simp [Button.handle_event, hi]
      · simp [Button.handle_event, hi, hms m (List.mem_cons_self m ms), hstate]
    rw [List.map_cons, Button.processEvents, List.foldl_cons, hstep]
    exact ih (fun x hx => hms x (List.mem_cons_of_mem m hx))

/-- C8 (amended): the Button fires `on_click` at most once per event, and only
on a left-release inside the rect while in click state (so every fire is
preceded by a left-press inside, whereupon the state left click only by
firing or by the pointer leaving); a left-press inside sets state=click;
motion outside sets state=normal — even mid-press, cancelling the gesture, so
a press-then-release-over-the-button gesture fires exactly once when the
pointer stays over the button between press and release (and not when it
leaves and re-enters); on firing, the state moves to hover. In the polling
`update()` path, pointer inside with the left button down yields state=click
and pointer outside yields state=normal each frame. -/
theorem button_click_gesture (b : Button) (hb : b.interactive = true) :
    (∀ e : PyEvent, ((b.handle_event e).1.clicks = b.clicks) ∨
      ((b.handle_event e).1.clicks = b.clicks + 1 ∧
       (b.handle_event e).1.current_state = BState.hover ∧
       b.current_state = BState.click ∧
       ∃ pos, e = PyEvent.mouseButtonUp 1 pos ∧ b.rect.collidepoint pos = true)) ∧
    (∀ pos, b.rect.collidepoint pos = true →
      (b.handle_event (PyEvent.mouseButtonDown 1 pos)).1.current_state = BState.click) ∧
    (∀ pos, b.rect.collidepoint pos = false →
      (b.handle_event (PyEvent.mouseMotion pos)).1.current_state = BState.normal) ∧
    (∀ pos, b.rect.collidepoint pos = true → b.current_state = BState.click →
      (b.handle_event (PyEvent.mouseButtonUp 1 pos)).1.clicks = b.clicks + 1 ∧
      (b.handle_event (PyEvent.mouseButtonUp 1 pos)).1.current_state = BState.hover) ∧
    (∀ (p q : Int × Int) (ms : List (Int × Int)),
      b.rect.collidepoint p = true → (∀ m ∈ ms, b.rect.collidepoint m = true) →
      b.rect.collidepoint q = true →
      (b.processEvents (PyEvent.mouseButtonDown 1 p :: (ms.map PyEvent.mouseMotion ++
        [PyEvent.mouseButtonUp 1 q]))).clicks = b.clicks + 1) ∧
    (∀ (mp : Int × Int) (pressed : Bool) (ups : Nat),
      (b.rect.collidepoint mp = true → pressed = true →
        (b.update mp pressed ups).current_state = BState.click) ∧
      (b.rect.collidepoint mp = false →
        (b.update mp pressed ups).current_state = BState.normal)) := by
  refine ⟨?_, ?_, ?_, ?_, ?_, ?_⟩
  · intro e
    cases e with
    | mouseButtonDown button pos =>
      left
      simp only [Button.handle_event, hb]
      split
      · rfl
      · split
        · rfl
        · rfl
    | mouseButtonUp button pos =>
      simp only [Button.handle_event, hb]
      split
      · exact Or.inl rfl
      · split
        · next hcond2 =>
          right
          obtain ⟨h1, h2, h3⟩ := hcond2
          exact ⟨rfl, rfl, h3, pos, by rw [h1], h2⟩
        · exact Or.inl rfl
    | mouseMotion pos =>
      left
      simp only [Button.handle_event, hb]
      split
      · rfl
      · split
        · split
          · rfl
          · rfl
        · rfl
    | other =>
      left
      simp [Button.handle_event, hb]
  · intro pos hpos
    simp [Button.handle_event, hb, hpos]
  · intro pos hpos
    simp [Button.handle_event, hb, hpos]
  · intro pos hpos hstate
    simp [Button.handle_event, hb, hpos, hstate]
  · intro p q ms hp hms hq
    have hdown : (b.handle_event (PyEvent.mouseButtonDown 1 p)).1 =
        { b with current_state := BState.click } := by
      simp [Button.handle_event, hb, hp]
    rw [Button.processEvents, List.foldl_cons, List.foldl_append]
    have hmid : List.foldl (fun b' e => (b'.handle_event e).1)
        (b.handle_event (PyEvent.mouseButtonDown 1 p)).1 (ms.map PyEvent.mouseMotion) =
        { b with current_state := BState.click } := by
      rw [hdown]
      exact processEvents_motions_inside { b with current_state := BState.click } ms hms rfl
    rw [hmid]
    simp [Button.handle_event, hb, hq]
  · intro mp pressed ups
    constructor
    · intro h1 h2
      simp [Button.update, h1, h2]
    · intro h1
      simp [Button.update, h1]

def c8Button : Button :=
  { rect := { x := 0, y := 0, w := 100, h := 50 }, interactive := true,
    current_state := BState.normal, clicks := 0 }

/-- Press inside, drag out, drag back in (button still held), release inside. -/
def c8Events : List PyEvent :=
  [PyEvent.mouseButtonDown 1 (10, 10), PyEvent.mouseMotion (200, 200),
   PyEvent.mouseMotion (10, 10), PyEvent.mouseButtonUp 1 (10, 10)]

/-- C8 (counterexample): deliver to a fresh button a left-press inside its
rect, a motion outside, a motion back inside (the left button still held
down), then a left-release inside. After the third event the pointer is
inside the rect with the left button down, yet the state is hover, not click
— refuting "pointer inside with the left button down implies state=click";
and the release inside then completes a press-then-release-over-the-button
gesture with the callback never fired (0 fires, not exactly 1), because the
motion outside silently reset the click state. -/
theorem button_gesture_counterexample :
    c8Button.rect.collidepoint (10, 10) = true ∧
    (c8Button.processEvents (c8Events.take 3)).current_state = BState.hover ∧
    ¬ (c8Button.processEvents (c8Events.take 3)).current_state = BState.click ∧
    (c8Button.processEvents c8Events).clicks = 0 ∧
    ¬ (c8Button.processEvents c8Events).clicks = 1 := by
  decide

theorem button_click_gesture_witness :
    (∀ e : PyEvent, ((c8Button.handle_event e).1.clicks = c8Button.clicks) ∨
      ((c8Button.handle_event e).1.clicks = c8Button.clicks + 1 ∧
       (c8Button.handle_event e).1.current_state = BState.hover ∧
       c8Button.current_state = BState.click ∧
       ∃ pos, e = PyEvent.mouseButtonUp 1 pos ∧ c8Button.rect.collidepoint pos = true)) ∧
    (∀ pos, c8Button.rect.collidepoint pos = true →
      (c8Button.handle_event (PyEvent.mouseButtonDown 1 pos)).1.current_state = BState.click) ∧
    (∀ pos, c8Button.rect.collidepoint pos = false →
      (c8Button.handle_event (PyEvent.mouseMotion pos)).1.current_state = BState.normal) ∧
    (∀ pos, c8Button.rect.collidepoint pos = true → c8Button.current_state = BState.click →
      (c8Button.handle_event (PyEvent.mouseButtonUp 1 pos)).1.clicks = c8Button.clicks + 1 ∧
      (c8Button.handle_event (PyEvent.mouseButtonUp 1 pos)).1.current_state = BState.hover) ∧
    (∀ (p q : Int × Int) (ms : List (Int × Int)),
      c8Button.rect.collidepoint p = true → (∀ m ∈ ms, c8Button.rect.collidepoint m = true) →
      c8Button.rect.collidepoint q = true →
      (c8Button.processEvents (PyEvent.mouseButtonDown 1 p :: (ms.map PyEvent.mouseMotion ++
        [PyEvent.mouseButtonUp 1 q]))).clicks = c8Button.clicks + 1) ∧
    (∀ (mp : Int × Int) (pressed : Bool) (ups : Nat),
      (c8Button.rect.collidepoint mp = true → pressed = true →
        (c8Button.update mp pressed ups).current_state = BState.click) ∧
      (c8Button.rect.collidepoint mp = false →
        (c8Button.update mp pressed ups).current_state = BState.normal)) :=
  button_click_gesture c8Button rfl
